import Mathlib

/-!
Verification development for the YOLOv5/v8-style face-detection head in
`model.py` (repository `yolov5_cspdarknet-face_detection_with_attributes`).

The decode pipeline (`AnchornizedFaceQuality`) is shallowly embedded here:
tensors become shape-carrying index functions over `ℚ` (exact arithmetic in
place of floating point), the logistic squash is an abstract parameter
`σ : ℚ → ℚ` except where its range matters (then the real logistic is used),
Python exceptions become `Except String`, and the mutable per-scale grid cache
(`self.grid` / `self.anchor_grid`) becomes an explicit list of optional cache
entries threaded through the computation.
-/

namespace YoloFace

/-- A raw 4-D prediction tensor as produced by a per-scale head convolution,
laid out `(batch N, channels C, rows H, cols W)`; `val` reads one entry. -/
structure RawScale where
  N : Nat
  C : Nat
  H : Nat
  W : Nat
  val : Nat → Nat → Nat → Nat → ℚ

/-- The shape tuple of a raw 4-D tensor, as `torch.Tensor.shape` reports it. -/
def RawScale.shape (x : RawScale) : List Nat := [x.N, x.C, x.H, x.W]

instance : Inhabited RawScale := ⟨⟨0, 0, 0, 0, fun _ _ _ _ => 0⟩⟩

/-- A 5-D tensor laid out `(batch N, anchor A, rows H, cols W, channels C)`,
the layout produced by `AnchornizedFaceQuality._reshape`. -/
structure Tensor5 where
  N : Nat
  A : Nat
  H : Nat
  W : Nat
  C : Nat
  val : Nat → Nat → Nat → Nat → Nat → ℚ

/-- The shape tuple of a 5-D tensor. -/
def Tensor5.shape (t : Tensor5) : List Nat := [t.N, t.A, t.H, t.W, t.C]

/-- A 3-D tensor laid out `(batch N, channels C, flattened cells L)`, the
layout produced by `x[i].view(N, C, -1)` in the porting branch. -/
structure Tensor3 where
  N : Nat
  C : Nat
  L : Nat
  val : Nat → Nat → Nat → ℚ

/-- Did an `Except` computation succeed (i.e. the Python code did not raise)? -/
def exceptOk {ε α : Type} : Except ε α → Bool
  | .ok _ => true
  | .error _ => false

/-- Configuration of `AnchornizedFaceQuality` as stored by `__init__`:
per-scale anchor `(width, height)` pairs, per-scale strides, the number of
extra attribute channels (`DATASET_NUM_DIMS - 1 - 4` in the source; the data
table is external, so the count is a parameter here), and the two NMS
thresholds forwarded to `AnchornizedNMS`. -/
structure HeadConfig where
  anchors : List (List (ℚ × ℚ))
  strides : List ℚ
  nattr : Nat
  confThreshold : ℚ
  iouThreshold : ℚ
deriving DecidableEq

/-- Number of detection layers, `self.nl = len(anchors)`. -/
def HeadConfig.nl (cfg : HeadConfig) : Nat := cfg.anchors.length

/-- Number of anchors per scale, `self.na = len(anchors[0]) // 2` (the flat
6-tuples of the source are represented as 3 pairs here). -/
def HeadConfig.na (cfg : HeadConfig) : Nat := (cfg.anchors.headD []).length

/-- The default anchor table of `AnchornizedFaceQuality.__init__`. -/
def defaultAnchors : List (List (ℚ × ℚ)) :=
  [[(10, 13), (16, 30), (33, 23)],
   [(30, 61), (62, 45), (59, 119)],
   [(116, 90), (156, 198), (373, 326)]]

/-- The default strides `(8, 16, 32)` of `AnchornizedFaceQuality.__init__`. -/
def defaultStrides : List ℚ := [8, 16, 32]

/-- Modelled from the spec: the constructor of `AnchornizedNMS` (file
`nms.py`, which is not under `src/`) validates the confidence and IoU
thresholds, reporting values outside `[0, 1]` as a configuration error at
construction time. -/
def anchornizedNMSInit (conf iou : ℚ) : Except String Unit :=
  if 0 ≤ conf ∧ conf ≤ 1 then
    if 0 ≤ iou ∧ iou ≤ 1 then .ok ()
    else .error "AnchornizedNMS: iou_threshold out of range"
  else .error "AnchornizedNMS: conf_threshold out of range"

/-- `AnchornizedFaceQuality.__init__`: stores anchors, strides and the
attribute count, and constructs the NMS stage (whose constructor is the only
validation performed; the strides list is stored without any check of its
length against the number of anchor groups). -/
def headInit (anchors : List (List (ℚ × ℚ))) (strides : List ℚ) (nattr : Nat)
    (conf iou : ℚ) : Except String HeadConfig :=
  match anchornizedNMSInit conf iou with
  | .error e => .error e
  | .ok _ => .ok ⟨anchors, strides, nattr, conf, iou⟩

/-- The activation kinds recognized by `ConvModule.__init__`. -/
inductive ActKind where
  | relu6
  | relu
  | leakyrelu
  | hardswish
deriving DecidableEq

/-- The activation selection of `ConvModule.__init__`: the four recognized
strings choose an activation; any other string raises `NotImplementedError`
at construction time. -/
def convModuleAct (act : String) : Except String ActKind :=
  if act = "relu6" then .ok .relu6
  else if act = "relu" then .ok .relu
  else if act = "leakyrelu" then .ok .leakyrelu
  else if act = "hardswish" then .ok .hardswish
  else .error ("conv with activation=" ++ act ++ " not implemented yet")

/-- A cell-offset grid together with its anchor grid, as built by
`_make_grid`: both are indexed `(anchor, row, col)` and hold `(x, y)` resp.
`(w, h)` pairs; the broadcast batch dimension of size 1 is dropped. -/
structure GridPair where
  grid : List (List (List (ℚ × ℚ)))
  agrid : List (List (List (ℚ × ℚ)))
deriving DecidableEq

/-- One spatial plane of the cell-offset grid: `meshgrid` followed by
`stack((xv, yv), 2)` puts the pair `(x = col, y = row)` at cell `(row, col)`. -/
def gridPlane (nx ny : Nat) : List (List (ℚ × ℚ)) :=
  (List.range ny).map fun (r : Nat) =>
    (List.range nx).map fun (c : Nat) => ((c : ℚ), (r : ℚ))

/-- `_make_grid(nx, ny, i)`: the offset grid is the plane of `(col, row)`
pairs expanded (replicated) across the anchor dimension, and the anchor grid
is `anchors[i] * strides[i]` broadcast across all cells. -/
def makeGrid (cfg : HeadConfig) (nx ny i : Nat) : GridPair :=
  { grid := List.replicate cfg.na (gridPlane nx ny)
  , agrid := (cfg.anchors.getD i []).map fun p =>
      List.replicate ny (List.replicate nx
        (p.1 * cfg.strides.getD i 0, p.2 * cfg.strides.getD i 0)) }

/-- `_make_grid` with the index accesses `self.anchors[i]` and
`self.strides[i]` checked: out-of-range scale indices raise `IndexError`. -/
def makeGridE (cfg : HeadConfig) (nx ny i : Nat) : Except String GridPair :=
  match cfg.anchors[i]?, cfg.strides[i]? with
  | some _, some _ => .ok (makeGrid cfg nx ny i)
  | _, _ => .error "IndexError: scale index out of range in _make_grid"

/-- Read the `(x, y)` offset pair of the grid at `(anchor, row, col)`. -/
def gridAt (gp : GridPair) (a h w : Nat) : ℚ × ℚ :=
  ((gp.grid.getD a []).getD h []).getD w (0, 0)

/-- Read the scaled anchor `(w, h)` pair of the anchor grid at
`(anchor, row, col)`. -/
def agridAt (gp : GridPair) (a h w : Nat) : ℚ × ℚ :=
  ((gp.agrid.getD a []).getD h []).getD w (0, 0)

/-- One slot of the per-scale grid cache `self.grid[i]` /
`self.anchor_grid[i]`: the spatial size the grids were built for (the tensor
shape slice `shape[2:4]`) together with the two grids. `none` models the
initial `torch.zeros(1)` placeholder, whose shape never matches a feature
map. -/
structure CacheEntry where
  H : Nat
  W : Nat
  gp : GridPair
deriving DecidableEq

/-- The grid-cache consultation of `forward`: rebuild via `_make_grid` when
nothing was built yet or the cached spatial shape differs from the incoming
one, otherwise return the cached entry; the Boolean reports whether a rebuild
happened. -/
def gridLookup (cfg : HeadConfig) (i : Nat) (cached : Option CacheEntry)
    (H W : Nat) : Except String (CacheEntry × Bool) :=
  match cached with
  | some e =>
      if e.H = H ∧ e.W = W then .ok (e, false)
      else
        match makeGridE cfg W H i with
        | .ok gp => .ok (⟨H, W, gp⟩, true)
        | .error err => .error err
  | none =>
      match makeGridE cfg W H i with
      | .ok gp => .ok (⟨H, W, gp⟩, true)
      | .error err => .error err

/-- The precondition of the `view` in `_reshape`: the requested shape
`(N, A, C / A, H, W)` must account for exactly the tensor's element count. -/
def viewOk (na : Nat) (x : RawScale) : Bool :=
  x.N * (na * ((x.C / na) * (x.H * x.W))) = x.N * (x.C * (x.H * x.W))

/-- `_reshape`: view `(N, C, H, W)` as `(N, A, C / A, H, W)` and permute to
`(N, A, H, W, C / A)`; entry `(n, a, h, w, c)` of the result is entry
`(n, a * (C / A) + c, h, w)` of the input. -/
def reshape (na : Nat) (x : RawScale) : Tensor5 :=
  { N := x.N, A := na, H := x.H, W := x.W, C := x.C / na
  , val := fun n a h w c => x.val n (a * (x.C / na) + c) h w }

/-- The per-cell decode of `forward` (inference branch), one output channel at
a time: after the logistic squash `σ` of every raw channel, channels 0/1 get
the grid-offset-and-stride transform, channels 2/3 the quadratic anchor
scaling, and all later channels stay at their squashed value. -/
def decodeCell {α : Type} [Field α] (σ : α → α) (S : α) (AS G : α × α)
    (raw : Nat → α) : Nat → α :=
  fun c =>
    if c = 0 then (σ (raw 0) * 2 - 1 / 2 + G.1) * S
    else if c = 1 then (σ (raw 1) * 2 - 1 / 2 + G.2) * S
    else if c = 2 then (σ (raw 2) * 2) * (σ (raw 2) * 2) * AS.1
    else if c = 3 then (σ (raw 3) * 2) * (σ (raw 3) * 2) * AS.2
    else σ (raw c)

/-- The whole-tensor decode `y` of the inference branch: every entry of the
reshaped prediction is decoded with the grid and anchor values at its own
`(anchor, row, col)` position. -/
def decodeTensor (σ : ℚ → ℚ) (S : ℚ) (gp : GridPair) (t : Tensor5) : Tensor5 :=
  { t with val := fun n a h w c =>
      (decodeCell σ S (agridAt gp a h w) (gridAt gp a h w)
        (fun j => t.val n a h w j) c) }

/-- A decoded candidate: its channel values (box `x y w h`, objectness, then
attribute scores). -/
abbrev Cand := Nat → ℚ

/-- The flattening `y.view(N, A*H*W, C)` restricted to batch item `n`: the
candidates of one scale in anchor-major, then row-major, then column order. -/
def scaleCandidates (σ : ℚ → ℚ) (S : ℚ) (gp : GridPair) (t : Tensor5)
    (n : Nat) : List Cand :=
  (List.range t.A).flatMap fun a =>
    (List.range t.H).flatMap fun h =>
      (List.range t.W).map fun w =>
        fun c => (decodeTensor σ S gp t).val n a h w c

/-- One iteration of the inference loop of `forward` for scale `i`: reshape
(the `view` may raise), consult/rebuild the grid cache, fetch `strides[i]`
(may raise `IndexError`), decode, and return the candidates of batch item `n`
together with the updated cache state. -/
def scaleStep (σ : ℚ → ℚ) (cfg : HeadConfig) (n i : Nat) (x : RawScale)
    (st : List (Option CacheEntry)) :
    Except String (List Cand × List (Option CacheEntry)) :=
  if viewOk cfg.na x then
    match gridLookup cfg i (st.getD i none) (reshape cfg.na x).H
        (reshape cfg.na x).W with
    | .error e => .error e
    | .ok (ce, rebuilt) =>
        match cfg.strides[i]? with
        | none => .error "IndexError: stride index out of range in forward"
        | some S =>
            .ok (scaleCandidates σ S ce.gp (reshape cfg.na x) n,
                 if rebuilt then st.set i (some ce) else st)
  else .error "view: shape incompatible with tensor size in _reshape"

/-- The inference loop over the scale indices: like the Python `for i in
range(self.nl)` it mutates the cache as it goes, and on an exception the
cache keeps the updates of the iterations already completed (the pair's
second component is the cache state when control leaves the loop). -/
def runScales (σ : ℚ → ℚ) (cfg : HeadConfig) (n : Nat) (xs : List RawScale) :
    List Nat → List (Option CacheEntry) →
    Except String (List (List Cand)) × List (Option CacheEntry)
  | [], st => (.ok [], st)
  | i :: is, st =>
    match xs[i]? with
    | none => (.error "IndexError: missing input scale", st)
    | some x =>
      match scaleStep σ cfg n i x st with
      | .error e => (.error e, st)
      | .ok (cands, st1) =>
        match runScales σ cfg n xs is st1 with
        | (.error e, st2) => (.error e, st2)
        | (.ok rest, st2) => (.ok (cands :: rest), st2)

/-- The inference branch of `forward` for batch item `n`: run every scale,
concatenate the per-scale candidate lists (`torch.cat(outputs, dim=1)`), and
return them together with the final grid-cache state. The suppression stage
`self.nms` lives in the external `nms.py` and is outside this model; the
returned list is exactly the candidate list handed to it. -/
def forwardInfer (σ : ℚ → ℚ) (cfg : HeadConfig) (n : Nat)
    (xs : List RawScale) (st : List (Option CacheEntry)) :
    Except String (List Cand) × List (Option CacheEntry) :=
  match runScales σ cfg n xs (List.range cfg.nl) st with
  | (.error e, st2) => (.error e, st2)
  | (.ok outs, st2) => (.ok outs.flatten, st2)

/-- The fresh cache of `__init__`: one unbuilt slot per detection layer. -/
def initCache (cfg : HeadConfig) : List (Option CacheEntry) :=
  List.replicate cfg.nl none

/-- One iteration of the training branch of `forward`: only `_reshape` is
applied (its `view` may raise); no grid, no decode. -/
def trainStep (cfg : HeadConfig) (x : RawScale) : Except String Tensor5 :=
  if viewOk cfg.na x then .ok (reshape cfg.na x)
  else .error "view: shape incompatible with tensor size in _reshape"

/-- The training branch of `forward`: reshape every scale in order and
return the list, with no decoding, no concatenation and no suppression. -/
def trainForwardE (cfg : HeadConfig) : List RawScale → Except String (List Tensor5)
  | [] => .ok []
  | x :: xs =>
    match trainStep cfg x with
    | .error e => .error e
    | .ok t =>
      match trainForwardE cfg xs with
      | .error e => .error e
      | .ok ts => .ok (t :: ts)

/-- Elementwise logistic squash `x.sigmoid()` of a raw 4-D tensor, with the
squashing function abstract. -/
def sigmoidRaw (σ : ℚ → ℚ) (x : RawScale) : RawScale :=
  { x with val := fun n c h w => σ (x.val n c h w) }

/-- The flattening `x.view(N, C, -1)` of the porting branch: cell index `l`
of the result reads row `l / W`, column `l % W` of the input. -/
def flatten3 (x : RawScale) : Tensor3 :=
  { N := x.N, C := x.C, L := x.H * x.W
  , val := fun n c l => x.val n c (l / x.W) (l % x.W) }

/-- The flat list of scaled anchor dimensions
`(self.anchors[i] * self.strides[i]).flatten()` appended to
`anchors_for_porting` for scale `i`: width then height, anchor-major. -/
def scaledAnchorsFlat (cfg : HeadConfig) (i : Nat) : List ℚ :=
  ((cfg.anchors.getD i []).map fun p =>
    [p.1 * cfg.strides.getD i 0, p.2 * cfg.strides.getD i 0]).flatten

/-- One iteration of the porting branch for scale `i`: squash, call
`_make_grid` (whose only effect here is appending the scaled anchors and
whose index accesses may raise), and flatten to `(N, C, H*W)`. -/
def portingStep (σ : ℚ → ℚ) (cfg : HeadConfig) (i : Nat) (x : RawScale)
    (acc : List ℚ) : Except String (Tensor3 × List ℚ) :=
  match cfg.anchors[i]?, cfg.strides[i]? with
  | some _, some _ => .ok (flatten3 (sigmoidRaw σ x), acc ++ scaledAnchorsFlat cfg i)
  | _, _ => .error "IndexError: scale index out of range in _make_grid"

/-- The porting loop over scale indices, threading `anchors_for_porting`. -/
def portingRun (σ : ℚ → ℚ) (cfg : HeadConfig) (xs : List RawScale) :
    List Nat → List ℚ → Except String (List Tensor3 × List ℚ)
  | [], acc => .ok ([], acc)
  | i :: is, acc =>
    match xs[i]? with
    | none => .error "IndexError: missing input scale"
    | some x =>
      match portingStep σ cfg i x acc with
      | .error e => .error e
      | .ok (t, acc1) =>
        match portingRun σ cfg xs is acc1 with
        | .error e => .error e
        | .ok (rest, acc2) => .ok (t :: rest, acc2)

/-- The porting branch of `forward`: per-scale squashed and flattened
tensors, returned as a list (no concatenation, no decode, no suppression),
plus the grown `anchors_for_porting` list. -/
def portingForwardE (σ : ℚ → ℚ) (cfg : HeadConfig) (xs : List RawScale)
    (acc : List ℚ) : Except String (List Tensor3 × List ℚ) :=
  portingRun σ cfg xs (List.range cfg.nl) acc

/-- The logistic function, the exact mathematical counterpart of
`torch.sigmoid`. -/
noncomputable def logistic (x : ℝ) : ℝ := 1 / (1 + Real.exp (-x))

end YoloFace

namespace YoloFace

/-- Reading the offset grid built by `_make_grid` inside its bounds yields
the `(col, row)` pair, for every anchor index. -/
theorem gridAt_makeGrid (cfg : HeadConfig) (nx ny i a r c : Nat)
    (hna : a < cfg.na) (hr : r < ny) (hc : c < nx) :
    gridAt (makeGrid cfg nx ny i) a r c = ((c : ℚ), (r : ℚ)) := by
  rw [gridAt, makeGrid]
  simp only [List.getD_eq_getElem?_getD]
  rw [List.getElem?_replicate, if_pos hna, Option.getD_some, gridPlane,
    List.getElem?_map, List.getElem?_range hr, Option.map_some', Option.getD_some,
    List.getElem?_map, List.getElem?_range hc, Option.map_some', Option.getD_some]

/-- Reading the anchor grid built by `_make_grid` inside its bounds yields
the anchor pair scaled by the stride, at every cell. -/
theorem agridAt_makeGrid (cfg : HeadConfig) (nx ny i a r c : Nat)
    (aw ah : ℚ) (ha : (cfg.anchors.getD i [])[a]? = some (aw, ah))
    (hr : r < ny) (hc : c < nx) :
    agridAt (makeGrid cfg nx ny i) a r c =
      (aw * cfg.strides.getD i 0, ah * cfg.strides.getD i 0) := by
  rw [agridAt, makeGrid]
  simp only [List.getD_eq_getElem?_getD] at ha ⊢
  rw [List.getElem?_map, ha, Option.map_some', Option.getD_some,
    List.getElem?_replicate, if_pos hr, Option.getD_some,
    List.getElem?_replicate, if_pos hc, Option.getD_some]

end YoloFace

namespace YoloFace

/-- The concrete default head configuration (default anchors and strides; one
attribute channel and the default thresholds of `__init__`). -/
def defaultCfg : HeadConfig :=
  ⟨defaultAnchors, defaultStrides, 1, 1 / 100, 3 / 5⟩

/-- A concrete stand-in squashing function used by the closed witnesses. -/
def sigma0 : ℚ → ℚ := fun q => q / 2

/-- C2: a grid rebuilt for spatial size `(ny, nx)` holds the pair `(c, r)`
(in `(x, y)` form) at every row `r`, column `c` and anchor `a`, and the
anchor grid holds `anchors[i][a] * strides[i]` at every cell. -/
theorem grid_build_cells (cfg : HeadConfig) (i nx ny a r c : Nat) (aw ah : ℚ)
    (hna : a < cfg.na) (hr : r < ny) (hc : c < nx)
    (ha : (cfg.anchors.getD i [])[a]? = some (aw, ah)) :
    gridAt (makeGrid cfg nx ny i) a r c = ((c : ℚ), (r : ℚ)) ∧
    agridAt (makeGrid cfg nx ny i) a r c =
      (aw * cfg.strides.getD i 0, ah * cfg.strides.getD i 0) :=
  ⟨gridAt_makeGrid cfg nx ny i a r c hna hr hc,
   agridAt_makeGrid cfg nx ny i a r c aw ah ha hr hc⟩

/-- Witness for C2 at the scale with stride 8 and spatial size `(20, 20)`:
cell `(row 5, col 7)` of the grid is `(7, 5)` in `(x, y)` form, and the
anchor grid holds the first anchor `(10, 13)` scaled by 8 at that cell. -/
theorem grid_build_cells_witness :
    0 < defaultCfg.na ∧ (5 : Nat) < 20 ∧ (7 : Nat) < 20 ∧
    (defaultCfg.anchors.getD 0 [])[0]? = some ((10 : ℚ), (13 : ℚ)) ∧
    defaultCfg.strides.getD 0 0 = 8 ∧
    gridAt (makeGrid defaultCfg 20 20 0) 0 5 7 = ((7 : ℚ), (5 : ℚ)) ∧
    agridAt (makeGrid defaultCfg 20 20 0) 0 5 7 = ((80 : ℚ), (104 : ℚ)) := by
  have h := grid_build_cells defaultCfg 0 20 20 0 5 7 10 13
    (by decide) (by decide) (by decide) (by decide)
  refine ⟨by decide, by decide, by decide, by decide, by decide, h.1, ?_⟩
  rw [h.2]
  norm_num [defaultCfg, defaultStrides]

end YoloFace

namespace YoloFace

/-- Channel 0 of the per-cell decode, evaluated. -/
theorem decodeCell_zero (σ : ℚ → ℚ) (S asw ash gx gy : ℚ) (raw : Nat → ℚ) :
    decodeCell σ S (asw, ash) (gx, gy) raw 0 = (σ (raw 0) * 2 - 1 / 2 + gx) * S := rfl

/-- Channel 1 of the per-cell decode, evaluated. -/
theorem decodeCell_one (σ : ℚ → ℚ) (S asw ash gx gy : ℚ) (raw : Nat → ℚ) :
    decodeCell σ S (asw, ash) (gx, gy) raw 1 = (σ (raw 1) * 2 - 1 / 2 + gy) * S := rfl

/-- Channel 2 of the per-cell decode, evaluated. -/
theorem decodeCell_two (σ : ℚ → ℚ) (S asw ash gx gy : ℚ) (raw : Nat → ℚ) :
    decodeCell σ S (asw, ash) (gx, gy) raw 2 = (σ (raw 2) * 2) * (σ (raw 2) * 2) * asw := rfl

/-- Channel 3 of the per-cell decode, evaluated. -/
theorem decodeCell_three (σ : ℚ → ℚ) (S asw ash gx gy : ℚ) (raw : Nat → ℚ) :
    decodeCell σ S (asw, ash) (gx, gy) raw 3 = (σ (raw 3) * 2) * (σ (raw 3) * 2) * ash := rfl

/-- Channels from 4 on keep their squashed value. -/
theorem decodeCell_ge4 (σ : ℚ → ℚ) (S : ℚ) (AS G : ℚ × ℚ) (raw : Nat → ℚ)
    (c : Nat) (hc : 4 ≤ c) : decodeCell σ S AS G raw c = σ (raw c) := by
  unfold decodeCell
  rw [if_neg (by omega : ¬ c = 0), if_neg (by omega : ¬ c = 1),
    if_neg (by omega : ¬ c = 2), if_neg (by omega : ¬ c = 3)]

/-- An entry of the decoded tensor is the per-cell decode at the entry's own
grid and anchor-grid position. -/
theorem decodeTensor_val (σ : ℚ → ℚ) (S : ℚ) (gp : GridPair) (t : Tensor5)
    (n a h w c : Nat) :
    (decodeTensor σ S gp t).val n a h w c
      = decodeCell σ S (agridAt gp a h w) (gridAt gp a h w)
          (fun j => t.val n a h w j) c := rfl

/-- C1: in the inference branch, after the logistic squash `σ` of every raw
channel, the decoded center is `(2σ(t) − 0.5 + grid) · stride`, the decoded
size is `(2σ(t))² · (anchor · stride)`, and every channel from 4 on
(objectness and attributes) is exactly the squashed raw value. -/
theorem decode_formulas (σ : ℚ → ℚ) (cfg : HeadConfig) (i : Nat) (t : Tensor5)
    (n a h w c : Nat) (aw ah : ℚ)
    (hna : a < cfg.na) (hh : h < t.H) (hw : w < t.W)
    (ha : (cfg.anchors.getD i [])[a]? = some (aw, ah)) (hc : 4 ≤ c) :
    (decodeTensor σ (cfg.strides.getD i 0) (makeGrid cfg t.W t.H i) t).val n a h w 0
      = (2 * σ (t.val n a h w 0) - 1 / 2 + (w : ℚ)) * cfg.strides.getD i 0 ∧
    (decodeTensor σ (cfg.strides.getD i 0) (makeGrid cfg t.W t.H i) t).val n a h w 1
      = (2 * σ (t.val n a h w 1) - 1 / 2 + (h : ℚ)) * cfg.strides.getD i 0 ∧
    (decodeTensor σ (cfg.strides.getD i 0) (makeGrid cfg t.W t.H i) t).val n a h w 2
      = (2 * σ (t.val n a h w 2)) ^ 2 * (aw * cfg.strides.getD i 0) ∧
    (decodeTensor σ (cfg.strides.getD i 0) (makeGrid cfg t.W t.H i) t).val n a h w 3
      = (2 * σ (t.val n a h w 3)) ^ 2 * (ah * cfg.strides.getD i 0) ∧
    (decodeTensor σ (cfg.strides.getD i 0) (makeGrid cfg t.W t.H i) t).val n a h w c
      = σ (t.val n a h w c) := by
  have hg := gridAt_makeGrid cfg t.W t.H i a h w hna hh hw
  have hag := agridAt_makeGrid cfg t.W t.H i a h w aw ah ha hh hw
  refine ⟨?_, ?_, ?_, ?_, ?_⟩
  · rw [decodeTensor_val, hg, hag, decodeCell_zero]; ring
  · rw [decodeTensor_val, hg, hag, decodeCell_one]; ring
  · rw [decodeTensor_val, hg, hag, decodeCell_two]; ring
  · rw [decodeTensor_val, hg, hag, decodeCell_three]; ring
  · rw [decodeTensor_val, decodeCell_ge4 _ _ _ _ _ c hc]

/-- A small concrete reshaped prediction tensor used by witnesses: one batch
item, three anchors, a 2-by-2 grid, six channels per anchor, entry value
equal to the channel index. -/
def t1 : Tensor5 := ⟨1, 3, 2, 2, 6, fun _ _ _ _ c => (c : ℚ)⟩

/-- Witness for C1 at scale 0 of the default configuration, anchor 0, cell
`(row 1, col 1)`, attribute channel 5. -/
theorem decode_formulas_witness :
    (0 : Nat) < defaultCfg.na ∧ (1 : Nat) < t1.H ∧ (1 : Nat) < t1.W ∧
    (defaultCfg.anchors.getD 0 [])[0]? = some ((10 : ℚ), (13 : ℚ)) ∧ (4 : Nat) ≤ 5 ∧
    ((decodeTensor sigma0 (defaultCfg.strides.getD 0 0)
        (makeGrid defaultCfg t1.W t1.H 0) t1).val 0 0 1 1 0
      = (2 * sigma0 (t1.val 0 0 1 1 0) - 1 / 2 + ((1 : Nat) : ℚ))
          * defaultCfg.strides.getD 0 0) ∧
    ((decodeTensor sigma0 (defaultCfg.strides.getD 0 0)
        (makeGrid defaultCfg t1.W t1.H 0) t1).val 0 0 1 1 2
      = (2 * sigma0 (t1.val 0 0 1 1 2)) ^ 2 * (10 * defaultCfg.strides.getD 0 0)) ∧
    ((decodeTensor sigma0 (defaultCfg.strides.getD 0 0)
        (makeGrid defaultCfg t1.W t1.H 0) t1).val 0 0 1 1 5
      = sigma0 (t1.val 0 0 1 1 5)) := by
  have h := decode_formulas sigma0 defaultCfg 0 t1 0 0 1 1 5 10 13
    (by decide) (by decide) (by decide) (by decide) (by decide)
  exact ⟨by decide, by decide, by decide, by decide, by decide,
    h.1, h.2.2.1, h.2.2.2.2⟩

end YoloFace

namespace YoloFace

/-- A successful training-branch step is exactly the per-anchor reshape. -/
theorem trainStep_ok (cfg : HeadConfig) (x : RawScale) (t : Tensor5)
    (h : trainStep cfg x = .ok t) : t = reshape cfg.na x := by
  unfold trainStep at h
  split at h
  · injection h with h; exact h.symm
  · exact absurd h (by simp)

/-- C5 (amended): the training branch applies only the per-anchor reshape to
each scale — a pure index remapping whose entries are raw head-convolution
values, with no squashing, no decoding and no suppression — and returns the
reshaped tensors as a list. -/
theorem train_mode_reshape_only (cfg : HeadConfig) (xs : List RawScale)
    (ts : List Tensor5) (h : trainForwardE cfg xs = .ok ts) :
    ts = xs.map (reshape cfg.na) ∧
    ∀ x n a r w c, (reshape cfg.na x).val n a r w c
      = x.val n (a * (x.C / cfg.na) + c) r w := by
  refine ⟨?_, fun x n a r w c => rfl⟩
  induction xs generalizing ts with
  | nil =>
    rw [trainForwardE] at h
    injection h with h
    simp [h.symm]
  | cons x xs ih =>
    rw [trainForwardE] at h
    cases htr : trainStep cfg x with
    | error e => rw [htr] at h; exact absurd h (by simp)
    | ok t =>
      rw [htr] at h
      cases hrest : trainForwardE cfg xs with
      | error e => rw [hrest] at h; exact absurd h (by simp)
      | ok ts2 =>
        rw [hrest] at h
        injection h with h
        rw [← h, List.map_cons, trainStep_ok cfg x t htr, ih ts2 hrest]

/-- A concrete raw head output: one batch item, six channels (two per anchor
under the default three anchors), a single cell. -/
def x6 : RawScale := ⟨1, 6, 1, 1, fun _ c _ _ => (c : ℚ)⟩

/-- Counterexample to C5 as stated: in training mode the head does not return
the per-scale tensors exactly as the head convolutions produced them — the
returned tensor for `x6` has shape `(1, 3, 1, 1, 2)` while the convolution
output had shape `(1, 6, 1, 1)`, so the returned object is the reshaped
tensor, not the raw one unchanged. -/
theorem train_mode_not_raw :
    (trainForwardE defaultCfg [x6]).map (List.map Tensor5.shape)
      = .ok [[1, 3, 1, 1, 2]] ∧
    x6.shape = [1, 6, 1, 1] ∧
    ([[1, 3, 1, 1, 2]] : List (List Nat)) ≠ [[1, 6, 1, 1]] := by
  refine ⟨rfl, by decide, by decide⟩

/-- Witness for C5 (amended) on the concrete input `x6`. -/
theorem train_mode_reshape_only_witness :
    trainForwardE defaultCfg [x6] = .ok [reshape defaultCfg.na x6] ∧
    [reshape defaultCfg.na x6] = [x6].map (reshape defaultCfg.na) ∧
    (reshape defaultCfg.na x6).val 0 0 0 0 1
      = x6.val 0 (0 * (x6.C / defaultCfg.na) + 1) 0 0 := by
  have h := train_mode_reshape_only defaultCfg [x6] [reshape defaultCfg.na x6] rfl
  exact ⟨rfl, h.1, h.2 x6 0 0 0 0 1⟩

/-- The logistic function's value lies strictly between 0 and 1. -/
theorem logistic_pos_lt_one (x : ℝ) : 0 < logistic x ∧ logistic x < 1 := by
  unfold logistic
  have he : 0 < Real.exp (-x) := Real.exp_pos _
  constructor
  · positivity
  · rw [div_lt_one (by linarith)]
    linarith

/-- C8: for every raw size input, the decoded width `(2σ(tw))² · anchor_w`
is strictly below four times the scaled anchor width, and likewise for the
height — quadratic growth bounded by a factor of 4 per axis, because the
logistic squash stays strictly below 1. -/
theorem size_growth_bound (S gx gy asw ash : ℝ) (raw : Nat → ℝ)
    (hw : 0 < asw) (hh : 0 < ash) :
    decodeCell logistic S (asw, ash) (gx, gy) raw 2 < 4 * asw ∧
    decodeCell logistic S (asw, ash) (gx, gy) raw 3 < 4 * ash := by
  obtain ⟨h2a, h2b⟩ := logistic_pos_lt_one (raw 2)
  obtain ⟨h3a, h3b⟩ := logistic_pos_lt_one (raw 3)
  have hsq2 : logistic (raw 2) * logistic (raw 2) < 1 := by
    have h := mul_lt_mul_of_pos_left h2b h2a
    rw [mul_one] at h
    linarith
  have hsq3 : logistic (raw 3) * logistic (raw 3) < 1 := by
    have h := mul_lt_mul_of_pos_left h3b h3a
    rw [mul_one] at h
    linarith
  constructor
  · have e : decodeCell logistic S (asw, ash) (gx, gy) raw 2
        = (logistic (raw 2) * 2) * (logistic (raw 2) * 2) * asw := rfl
    rw [e]
    nlinarith [mul_pos hw (sub_pos.mpr hsq2)]
  · have e : decodeCell logistic S (asw, ash) (gx, gy) raw 3
        = (logistic (raw 3) * 2) * (logistic (raw 3) * 2) * ash := rfl
    rw [e]
    nlinarith [mul_pos hh (sub_pos.mpr hsq3)]

/-- Witness for C8 at the stride-8 first default anchor `(10, 13)` scaled to
`(80, 104)`. -/
theorem size_growth_bound_witness :
    (0 : ℝ) < 80 ∧ (0 : ℝ) < 104 ∧
    (decodeCell logistic 8 (80, 104) (0, 0) (fun _ => 0) 2 < 4 * 80 ∧
     decodeCell logistic 8 (80, 104) (0, 0) (fun _ => 0) 3 < 4 * 104) :=
  ⟨by norm_num, by norm_num,
   size_growth_bound 8 0 0 80 104 (fun _ => 0) (by norm_num) (by norm_num)⟩

/-- C9: constructing a convolution block succeeds exactly for the four
recognized activation strings; any other string raises at configuration
time. -/
theorem conv_act_recognized (act : String) :
    exceptOk (convModuleAct act) = true ↔
      (act = "relu6" ∨ act = "relu" ∨ act = "leakyrelu" ∨ act = "hardswish") := by
  by_cases h1 : act = "relu6" <;> by_cases h2 : act = "relu" <;>
    by_cases h3 : act = "leakyrelu" <;> by_cases h4 : act = "hardswish" <;>
    simp [convModuleAct, exceptOk, h1, h2, h3, h4]

/-- Witness for C9: a recognized activation is accepted and an unrecognized
one is rejected. -/
theorem conv_act_recognized_witness :
    exceptOk (convModuleAct "hardswish") = true ∧
    exceptOk (convModuleAct "gelu") = false := by
  constructor
  · exact (conv_act_recognized "hardswish").mpr (Or.inr (Or.inr (Or.inr rfl)))
  · rw [Bool.eq_false_iff]
    intro htrue
    rcases (conv_act_recognized "gelu").mp htrue with h | h | h | h <;>
      exact absurd h (by decide)

end YoloFace

namespace YoloFace

/-- A successful porting-branch step squashes and flattens its scale and
appends that scale's scaled anchors to `anchors_for_porting`. -/
theorem portingStep_ok (σ : ℚ → ℚ) (cfg : HeadConfig) (i : Nat) (x : RawScale)
    (acc : List ℚ) (t : Tensor3) (acc1 : List ℚ)
    (h : portingStep σ cfg i x acc = .ok (t, acc1)) :
    t = flatten3 (sigmoidRaw σ x) ∧ acc1 = acc ++ scaledAnchorsFlat cfg i := by
  unfold portingStep at h
  split at h
  · injection h with h
    exact ⟨congrArg Prod.fst h.symm, congrArg Prod.snd h.symm⟩
  · exact absurd h (by simp)

/-- A successful porting loop yields, scale by scale, the squashed flattened
tensors, and extends `anchors_for_porting` by all scales' scaled anchors. -/
theorem portingRun_ok (σ : ℚ → ℚ) (cfg : HeadConfig) (xs : List RawScale)
    (is : List Nat) (acc : List ℚ) (outs : List Tensor3) (acc2 : List ℚ)
    (h : portingRun σ cfg xs is acc = .ok (outs, acc2)) :
    outs = is.map (fun i => flatten3 (sigmoidRaw σ (xs.getD i default))) ∧
    acc2 = acc ++ (is.map (scaledAnchorsFlat cfg)).flatten := by
  induction is generalizing acc outs acc2 with
  | nil =>
    rw [portingRun] at h
    injection h with h
    injection h with h1 h2
    subst h1; subst h2
    simp
  | cons i is ih =>
    rw [portingRun] at h
    cases hx : xs[i]? with
    | none => rw [hx] at h; exact absurd h (by simp)
    | some x =>
      rw [hx] at h
      dsimp only at h
      cases hps : portingStep σ cfg i x acc with
      | error e => rw [hps] at h; exact absurd h (by simp)
      | ok p =>
        rw [hps] at h
        obtain ⟨t, acc1⟩ := p
        dsimp only at h
        cases hrest : portingRun σ cfg xs is acc1 with
        | error e => rw [hrest] at h; exact absurd h (by simp)
        | ok q =>
          rw [hrest] at h
          obtain ⟨rest, acc3⟩ := q
          dsimp only at h
          injection h with h
          injection h with h1 h2
          obtain ⟨ht, hacc1⟩ := portingStep_ok σ cfg i x acc t acc1 hps
          obtain ⟨hrest2, hacc3⟩ := ih acc1 rest acc3 hrest
          subst h1; subst h2
          constructor
          · rw [List.map_cons, hrest2]
            have hgd : xs.getD i default = x := by
              rw [List.getD_eq_getElem?_getD, hx, Option.getD_some]
            rw [hgd, ht]
          · rw [hacc3, hacc1, List.map_cons, List.flatten_cons, List.append_assoc]

/-- C10: with the porting flag set, the forward pass returns, per scale, the
squashed raw head output flattened to `(batch, channels, H·W)` — no
grid-offset or anchor decoding, no cross-scale concatenation, no suppression
— and each call appends every scale's `anchor × stride` dimensions to
`anchors_for_porting`. -/
theorem porting_mode_behavior (σ : ℚ → ℚ) (cfg : HeadConfig)
    (xs : List RawScale) (acc : List ℚ) (outs : List Tensor3) (acc2 : List ℚ)
    (h : portingForwardE σ cfg xs acc = .ok (outs, acc2)) :
    outs = (List.range cfg.nl).map
      (fun i => flatten3 (sigmoidRaw σ (xs.getD i default))) ∧
    acc2 = acc ++ ((List.range cfg.nl).map (scaledAnchorsFlat cfg)).flatten ∧
    (∀ x n c l, (flatten3 (sigmoidRaw σ x)).val n c l
       = σ (x.val n c (l / x.W) (l % x.W))) ∧
    (∀ x, (flatten3 (sigmoidRaw σ x)).N = x.N ∧
       (flatten3 (sigmoidRaw σ x)).C = x.C ∧
       (flatten3 (sigmoidRaw σ x)).L = x.H * x.W) := by
  obtain ⟨h1, h2⟩ := portingRun_ok σ cfg xs (List.range cfg.nl) acc outs acc2 h
  exact ⟨h1, h2, fun x n c l => rfl, fun x => ⟨rfl, rfl, rfl⟩⟩

/-- Witness for C10 on three copies of the concrete raw output `x6` under
the default configuration. -/
theorem porting_mode_behavior_witness :
    portingForwardE sigma0 defaultCfg [x6, x6, x6] []
      = .ok ([flatten3 (sigmoidRaw sigma0 x6), flatten3 (sigmoidRaw sigma0 x6),
              flatten3 (sigmoidRaw sigma0 x6)],
             [] ++ ((List.range defaultCfg.nl).map
               (scaledAnchorsFlat defaultCfg)).flatten) ∧
    [flatten3 (sigmoidRaw sigma0 x6), flatten3 (sigmoidRaw sigma0 x6),
       flatten3 (sigmoidRaw sigma0 x6)]
      = (List.range defaultCfg.nl).map
          (fun i => flatten3 (sigmoidRaw sigma0 ([x6, x6, x6].getD i default))) ∧
    (flatten3 (sigmoidRaw sigma0 x6)).val 0 0 0
      = sigma0 (x6.val 0 0 (0 / x6.W) (0 % x6.W)) ∧
    (flatten3 (sigmoidRaw sigma0 x6)).L = x6.H * x6.W := by
  have h : portingForwardE sigma0 defaultCfg [x6, x6, x6] []
      = .ok ([flatten3 (sigmoidRaw sigma0 x6), flatten3 (sigmoidRaw sigma0 x6),
              flatten3 (sigmoidRaw sigma0 x6)],
             [] ++ ((List.range defaultCfg.nl).map
               (scaledAnchorsFlat defaultCfg)).flatten) := rfl
  have hc := porting_mode_behavior sigma0 defaultCfg [x6, x6, x6] [] _ _ h
  exact ⟨h, hc.1, hc.2.2.1 x6 0 0 0, (hc.2.2.2 x6).2.2⟩

end YoloFace

namespace YoloFace

/-- A successful checked grid build is the plain `_make_grid` result. -/
theorem makeGridE_ok (cfg : HeadConfig) (nx ny i : Nat) (gp : GridPair)
    (h : makeGridE cfg nx ny i = .ok gp) : gp = makeGrid cfg nx ny i := by
  unfold makeGridE at h
  split at h
  · injection h with h; exact h.symm
  · exact absurd h (by simp)

/-- C4: the grid cache rebuilds exactly when no grid has been built for the
scale (`none` slot) or the cached spatial shape differs from the incoming
one; on a shape match the cached entry itself is returned and a decode step
leaves the module's cache state completely unchanged. -/
theorem grid_cache_policy (cfg : HeadConfig) (i H W : Nat)
    (cached : Option CacheEntry) :
    (∀ ce b, gridLookup cfg i cached H W = .ok (ce, b) →
       ((b = true ↔ cached = none ∨ ∃ e, cached = some e ∧ (e.H ≠ H ∨ e.W ≠ W)) ∧
        (b = false → cached = some ce))) ∧
    (∀ σ n x (st : List (Option CacheEntry)) e cands st2,
       st.getD i none = some e → e.H = x.H → e.W = x.W →
       scaleStep σ cfg n i x st = .ok (cands, st2) → st2 = st) := by
  constructor
  · intro ce b h
    cases cached with
    | none =>
      rw [gridLookup] at h
      cases hmg : makeGridE cfg W H i with
      | error err => rw [hmg] at h; exact absurd h (by simp)
      | ok gp =>
        rw [hmg] at h
        injection h with h
        injection h with h1 h2
        subst h2
        constructor
        · simp
        · intro hb; exact absurd hb (by simp)
    | some e =>
      rw [gridLookup] at h
      by_cases he : e.H = H ∧ e.W = W
      · rw [if_pos he] at h
        injection h with h
        injection h with h1 h2
        subst h2
        constructor
        · constructor
          · intro hb; exact absurd hb (by simp)
          · rintro (hn | ⟨e2, he2, hne⟩)
            · exact absurd hn (by simp)
            · injection he2 with he2
              subst he2
              rcases hne with hne | hne
              · exact absurd he.1 hne
              · exact absurd he.2 hne
        · intro _; rw [h1]
      · rw [if_neg he] at h
        cases hmg : makeGridE cfg W H i with
        | error err => rw [hmg] at h; exact absurd h (by simp)
        | ok gp =>
          rw [hmg] at h
          injection h with h
          injection h with h1 h2
          subst h2
          constructor
          · constructor
            · intro _
              right
              refine ⟨e, rfl, ?_⟩
              rcases Decidable.not_and_iff_or_not.mp he with hne | hne
              · exact Or.inl hne
              · exact Or.inr hne
            · intro _; rfl
          · intro hb; exact absurd hb (by simp)
  · intro σ n x st e cands st2 hst he1 he2 h
    unfold scaleStep at h
    split at h
    · rw [hst] at h
      rw [gridLookup] at h
      rw [if_pos ⟨he1, he2⟩] at h
      cases hs : cfg.strides[i]? with
      | none => rw [hs] at h; exact absurd h (by simp)
      | some S =>
        rw [hs] at h
        dsimp only at h
        injection h with h
        injection h with h1 h2
        exact h2.symm
    · exact absurd h (by simp)

end YoloFace

namespace YoloFace

/-- The per-scale candidate list as determined by the scale's own input
alone: decode with the canonical grid for the input's spatial size. The
cache only memoizes this value, so any well-formed run produces it. -/
def canonCands (σ : ℚ → ℚ) (cfg : HeadConfig) (n i : Nat) (x : RawScale) :
    List Cand :=
  scaleCandidates σ (cfg.strides.getD i 0) (makeGrid cfg x.W x.H i)
    (reshape cfg.na x) n

/-- Cache well-formedness: every built slot holds exactly the grid pair that
`_make_grid` produces for its recorded shape and scale. Every reachable
cache state has this property, since slots are only ever filled by
`_make_grid`. -/
def WFCache (cfg : HeadConfig) (st : List (Option CacheEntry)) : Prop :=
  ∀ i e, st.getD i none = some e → e.gp = makeGrid cfg e.W e.H i

/-- The fresh cache of `__init__` is well formed (no slot is built). -/
theorem WFCache_initCache (cfg : HeadConfig) : WFCache cfg (initCache cfg) := by
  intro i e h
  rw [initCache, List.getD_eq_getElem?_getD, List.getElem?_replicate] at h
  by_cases hi : i < cfg.nl
  · rw [if_pos hi] at h; exact absurd h (by simp)
  · rw [if_neg hi] at h; exact absurd h (by simp)

/-- Overwriting a slot with a canonical entry keeps the cache well formed. -/
theorem WFCache_set (cfg : HeadConfig) (st : List (Option CacheEntry))
    (i : Nat) (ce : CacheEntry) (hwf : WFCache cfg st)
    (hce : ce.gp = makeGrid cfg ce.W ce.H i) :
    WFCache cfg (st.set i (some ce)) := by
  intro j e hj
  rw [List.getD_eq_getElem?_getD, List.getElem?_set] at hj
  by_cases hij : i = j
  · subst hij
    by_cases hlen : i < st.length
    · rw [if_pos rfl, if_pos hlen, Option.getD_some] at hj
      injection hj with hj
      rw [← hj]
      exact hce
    · rw [if_pos rfl, if_neg hlen] at hj
      exact absurd hj (by simp)
  · rw [if_neg hij] at hj
    exact hwf j e (by rw [List.getD_eq_getElem?_getD]; exact hj)

/-- Whether hit or rebuilt, the entry handed to the decoder is the canonical
grid pair for the incoming spatial shape. -/
theorem gridLookup_ok_canon (cfg : HeadConfig) (i H W : Nat)
    (cached : Option CacheEntry) (ce : CacheEntry) (b : Bool)
    (hwf : ∀ e, cached = some e → e.gp = makeGrid cfg e.W e.H i)
    (h : gridLookup cfg i cached H W = .ok (ce, b)) :
    ce.H = H ∧ ce.W = W ∧ ce.gp = makeGrid cfg W H i := by
  cases cached with
  | none =>
    rw [gridLookup] at h
    cases hmg : makeGridE cfg W H i with
    | error err => rw [hmg] at h; exact absurd h (by simp)
    | ok gp =>
      rw [hmg] at h
      injection h with h
      injection h with h1 h2
      rw [← h1]
      exact ⟨rfl, rfl, makeGridE_ok cfg W H i gp hmg⟩
  | some e =>
    rw [gridLookup] at h
    by_cases he : e.H = H ∧ e.W = W
    · rw [if_pos he] at h
      injection h with h
      injection h with h1 h2
      rw [← h1]
      refine ⟨he.1, he.2, ?_⟩
      rw [hwf e rfl, he.1, he.2]
    · rw [if_neg he] at h
      cases hmg : makeGridE cfg W H i with
      | error err => rw [hmg] at h; exact absurd h (by simp)
      | ok gp =>
        rw [hmg] at h
        injection h with h
        injection h with h1 h2
        rw [← h1]
        exact ⟨rfl, rfl, makeGridE_ok cfg W H i gp hmg⟩

/-- A successful decode step over a well-formed cache produces the canonical
candidates of its scale and keeps the cache well formed. -/
theorem scaleStep_ok_canon (σ : ℚ → ℚ) (cfg : HeadConfig) (n i : Nat)
    (x : RawScale) (st : List (Option CacheEntry)) (cands : List Cand)
    (st2 : List (Option CacheEntry)) (hwf : WFCache cfg st)
    (h : scaleStep σ cfg n i x st = .ok (cands, st2)) :
    cands = canonCands σ cfg n i x ∧ WFCache cfg st2 := by
  unfold scaleStep at h
  split at h
  · cases hgl : gridLookup cfg i (st.getD i none) (reshape cfg.na x).H
        (reshape cfg.na x).W with
    | error e => rw [hgl] at h; exact absurd h (by simp)
    | ok p =>
      rw [hgl] at h
      obtain ⟨ce, rebuilt⟩ := p
      dsimp only at h
      cases hs : cfg.strides[i]? with
      | none => rw [hs] at h; exact absurd h (by simp)
      | some S =>
        rw [hs] at h
        dsimp only at h
        injection h with h
        injection h with h1 h2
        have hcanon := gridLookup_ok_canon cfg i (reshape cfg.na x).H
          (reshape cfg.na x).W (st.getD i none) ce rebuilt
          (fun e he => hwf i e he) hgl
        have hS : cfg.strides.getD i 0 = S := by
          rw [List.getD_eq_getElem?_getD, hs, Option.getD_some]
        constructor
        · rw [← h1, canonCands, hS, hcanon.2.2]
          rfl
        · rw [← h2]
          cases rebuilt with
          | false => exact hwf
          | true =>
            refine WFCache_set cfg st i ce hwf ?_
            rw [hcanon.1, hcanon.2.1]
            exact hcanon.2.2
  · exact absurd h (by simp)

/-- The inference loop over a well-formed cache returns one canonical
candidate block per visited scale index, in index order, and keeps the final
cache well formed. -/
theorem runScales_ok_canon (σ : ℚ → ℚ) (cfg : HeadConfig) (n : Nat)
    (xs : List RawScale) (is : List Nat) (st : List (Option CacheEntry))
    (outs : List (List Cand)) (st2 : List (Option CacheEntry))
    (hwf : WFCache cfg st)
    (h : runScales σ cfg n xs is st = (.ok outs, st2)) :
    outs = is.map (fun i => canonCands σ cfg n i (xs.getD i default)) ∧
    WFCache cfg st2 := by
  induction is generalizing st outs st2 with
  | nil =>
    rw [runScales] at h
    injection h with h1 h2
    injection h1 with h1
    subst h2
    rw [← h1]
    exact ⟨by simp, hwf⟩
  | cons i is ih =>
    rw [runScales] at h
    cases hx : xs[i]? with
    | none =>
      rw [hx] at h
      dsimp only at h
      injection h with h1 h2
      exact absurd h1 (by simp)
    | some x =>
      rw [hx] at h
      dsimp only at h
      cases hss : scaleStep σ cfg n i x st with
      | error e =>
        rw [hss] at h
        dsimp only at h
        injection h with h1 h2
        exact absurd h1 (by simp)
      | ok p =>
        rw [hss] at h
        obtain ⟨cands, st1⟩ := p
        dsimp only at h
        obtain ⟨hcanon, hwf1⟩ := scaleStep_ok_canon σ cfg n i x st cands st1 hwf hss
        cases hrun : runScales σ cfg n xs is st1 with
        | mk res stF =>
          rw [hrun] at h
          cases res with
          | error e =>
            dsimp only at h
            injection h with h1 h2
            exact absurd h1 (by simp)
          | ok rest =>
            dsimp only at h
            injection h with h1 h2
            injection h1 with h1
            subst h2
            obtain ⟨hrest, hwfF⟩ := ih st1 rest stF hwf1 hrun
            constructor
            · rw [← h1, List.map_cons, hcanon, hrest]
              have hgd : xs.getD i default = x := by
                rw [List.getD_eq_getElem?_getD, hx, Option.getD_some]
              rw [hgd]
            · exact hwfF

/-- One scale contributes exactly `anchors × rows × cols` candidates. -/
theorem scaleCandidates_length (σ : ℚ → ℚ) (S : ℚ) (gp : GridPair)
    (t : Tensor5) (n : Nat) :
    (scaleCandidates σ S gp t n).length = t.A * (t.H * t.W) := by
  unfold scaleCandidates
  simp [List.length_flatMap, Function.comp_def, List.length_map,
    List.length_range, List.map_const', List.sum_replicate, smul_eq_mul]

/-- C3: the concatenated candidate list handed to suppression is exactly the
per-scale canonical candidate blocks in scale-major order, its per-batch-item
length is the sum over scales of `anchors × H_s × W_s`, and the whole
computation is reproducible: identical inputs give the identical ordered
list. -/
theorem forward_candidate_layout (σ : ℚ → ℚ) (cfg : HeadConfig) (n : Nat)
    (xs : List RawScale) (st : List (Option CacheEntry)) (out : List Cand)
    (st2 : List (Option CacheEntry)) (hwf : WFCache cfg st)
    (h : forwardInfer σ cfg n xs st = (.ok out, st2)) :
    out = ((List.range cfg.nl).map
             (fun i => canonCands σ cfg n i (xs.getD i default))).flatten ∧
    out.length = ((List.range cfg.nl).map
             (fun i => cfg.na * ((xs.getD i default).H * (xs.getD i default).W))).sum ∧
    ∀ ys st3, ys = xs → st3 = st → forwardInfer σ cfg n ys st3 = (.ok out, st2) := by
  unfold forwardInfer at h
  cases hrun : runScales σ cfg n xs (List.range cfg.nl) st with
  | mk res stF =>
    rw [hrun] at h
    cases res with
    | error e =>
      dsimp only at h
      injection h with h1 h2
      exact absurd h1 (by simp)
    | ok outs =>
      dsimp only at h
      injection h with h1 h2
      subst h2
      injection h1 with h1
      obtain ⟨ho, hwfF⟩ := runScales_ok_canon σ cfg n xs (List.range cfg.nl)
        st outs stF hwf hrun
      have hout : out = ((List.range cfg.nl).map
          (fun i => canonCands σ cfg n i (xs.getD i default))).flatten := by
        rw [← h1, ho]
      refine ⟨hout, ?_, ?_⟩
      · rw [hout]
        simp only [List.length_flatten, List.map_map, Function.comp_def,
          canonCands, scaleCandidates_length, reshape]
      · intro ys st3 hys hst3
        subst hys; subst hst3
        unfold forwardInfer
        rw [hrun]
        dsimp only
        rw [h1]

end YoloFace

namespace YoloFace

/-- A scale whose channel count fails the `view` size check errors at the
reshape, before the grid cache is consulted. -/
theorem scaleStep_view_fail (σ : ℚ → ℚ) (cfg : HeadConfig) (n i : Nat)
    (x : RawScale) (st : List (Option CacheEntry))
    (hbad : viewOk cfg.na x = false) :
    scaleStep σ cfg n i x st
      = .error "view: shape incompatible with tensor size in _reshape" := by
  simp [scaleStep, hbad]

/-- Reading a stride index past the end of the stored strides list makes the
decode step raise, on the rebuild path (`_make_grid`) or on the hit path
(the `strides[i]` read of the decode line). -/
theorem scaleStep_strides_missing (σ : ℚ → ℚ) (cfg : HeadConfig) (n i : Nat)
    (x : RawScale) (st : List (Option CacheEntry))
    (hlen : cfg.strides.length ≤ i) :
    ∃ err, scaleStep σ cfg n i x st = .error err := by
  unfold scaleStep
  split
  · cases hgl : gridLookup cfg i (st.getD i none) (reshape cfg.na x).H
        (reshape cfg.na x).W with
    | error e =>
      exact ⟨e, rfl⟩
    | ok p =>
      obtain ⟨ce, rebuilt⟩ := p
      dsimp only
      rw [List.getElem?_eq_none hlen]
      exact ⟨_, rfl⟩
  · exact ⟨_, rfl⟩

/-- The `view` of `_reshape` succeeds exactly when the channel count is a
multiple of the anchor count or the tensor has no elements. -/
theorem viewOk_iff (na : Nat) (x : RawScale) :
    viewOk na x = true ↔ (na ∣ x.C ∨ x.N * (x.H * x.W) = 0) := by
  unfold viewOk
  rw [decide_eq_true_eq]
  constructor
  · intro h
    rcases Nat.eq_zero_or_pos (x.N * (x.H * x.W)) with hz | hpos
    · exact Or.inr hz
    · left
      rcases Nat.eq_zero_or_pos x.N with h0 | hN
      · rw [h0] at hpos; simp at hpos
      · rcases Nat.eq_zero_or_pos (x.H * x.W) with h0 | hHW
        · rw [h0] at hpos; simp at hpos
        · have h2 := Nat.eq_of_mul_eq_mul_left hN h
          rw [← Nat.mul_assoc] at h2
          have h3 := Nat.eq_of_mul_eq_mul_right hHW h2
          exact ⟨x.C / na, h3.symm⟩
  · intro h
    rcases h with hdvd | hz
    · have hmc : na * (x.C / na) = x.C := Nat.mul_div_cancel' hdvd
      rw [← Nat.mul_assoc na (x.C / na) (x.H * x.W), hmc]
    · rcases Nat.mul_eq_zero.mp hz with h0 | h0
      · rw [h0]; simp
      · rw [h0]; simp

/-- C6 (amended): the only construction-time validation is the NMS
constructor's threshold check (modelled from the spec, since `nms.py` is
external): construction succeeds exactly when both thresholds lie in
`[0, 1]`, regardless of the strides list; a strides list shorter than the
number of anchor groups is accepted at construction and raises only when the
affected scale index is decoded. -/
theorem config_validation (anchors : List (List (ℚ × ℚ))) (strides : List ℚ)
    (nattr : Nat) (conf iou : ℚ) :
    (exceptOk (headInit anchors strides nattr conf iou) = true ↔
       (0 ≤ conf ∧ conf ≤ 1 ∧ 0 ≤ iou ∧ iou ≤ 1)) ∧
    (∀ σ cfg n i x st, headInit anchors strides nattr conf iou = .ok cfg →
       strides.length ≤ i → ∃ err, scaleStep σ cfg n i x st = .error err) := by
  constructor
  · unfold headInit anchornizedNMSInit
    by_cases h1 : 0 ≤ conf ∧ conf ≤ 1 <;> by_cases h2 : 0 ≤ iou ∧ iou ≤ 1 <;>
      simp [h1, h2, exceptOk] <;> tauto
  · intro σ cfg n i x st hok hlen
    have hcfg : cfg.strides = strides := by
      unfold headInit at hok
      cases hnms : anchornizedNMSInit conf iou with
      | error e => rw [hnms] at hok; exact absurd hok (by simp)
      | ok u => rw [hnms] at hok; injection hok with hok; rw [← hok]
    exact scaleStep_strides_missing σ cfg n i x st (by rw [hcfg]; exact hlen)

/-- Counterexample to C6 as stated: a strides list of length 2 against three
anchor groups is accepted by construction without any error — the mismatch
is not a construction-time failure. -/
theorem config_mismatch_accepted :
    headInit defaultAnchors [8, 16] 1 (1 / 100) (3 / 5)
      = .ok ⟨defaultAnchors, [8, 16], 1, 1 / 100, 3 / 5⟩ ∧
    defaultAnchors.length = 3 ∧ ([8, 16] : List ℚ).length = 2 := by
  refine ⟨?_, rfl, rfl⟩
  unfold headInit anchornizedNMSInit
  rw [if_pos (by norm_num : (0 : ℚ) ≤ 1 / 100 ∧ (1 : ℚ) / 100 ≤ 1),
    if_pos (by norm_num : (0 : ℚ) ≤ 3 / 5 ∧ (3 : ℚ) / 5 ≤ 1)]

/-- Witness for C6 (amended): in-range thresholds are accepted even with a
short strides list, an out-of-range confidence threshold is rejected, and
decoding scale 2 under the short strides list raises. -/
theorem config_validation_witness :
    exceptOk (headInit defaultAnchors [8, 16] 1 (1 / 100) (3 / 5)) = true ∧
    exceptOk (headInit defaultAnchors [8, 16] 1 2 (3 / 5)) = false ∧
    ∃ err, scaleStep sigma0 ⟨defaultAnchors, [8, 16], 1, 1 / 100, 3 / 5⟩ 0 2 x6 []
      = .error err := by
  refine ⟨(config_validation defaultAnchors [8, 16] 1 (1 / 100) (3 / 5)).1.mpr
    (by norm_num), ?_, ?_⟩
  · rw [Bool.eq_false_iff]
    intro htrue
    have hc := (config_validation defaultAnchors [8, 16] 1 2 (3 / 5)).1.mp htrue
    norm_num at hc
  · refine (config_validation defaultAnchors [8, 16] 1 (1 / 100) (3 / 5)).2
      sigma0 _ 0 2 x6 [] ?_ (by norm_num)
    unfold headInit anchornizedNMSInit
    rw [if_pos (by norm_num : (0 : ℚ) ≤ 1 / 100 ∧ (1 : ℚ) / 100 ≤ 1),
      if_pos (by norm_num : (0 : ℚ) ≤ 3 / 5 ∧ (3 : ℚ) / 5 ≤ 1)]

/-- C7 (amended): a first scale whose channel count is not divisible by the
anchor count (with a nonempty tensor) makes the inference call fail at the
reshape's `view`, and the grid cache is left exactly as it was — the reshape
precedes the grid lookup, so no cache slot is touched. -/
theorem reshape_error_atomic (σ : ℚ → ℚ) (cfg : HeadConfig) (n : Nat)
    (xs : List RawScale) (st : List (Option CacheEntry)) (x0 : RawScale)
    (hnl : 0 < cfg.nl) (hx : xs[0]? = some x0)
    (hdvd : ¬ cfg.na ∣ x0.C) (hnz : x0.N * (x0.H * x0.W) ≠ 0) :
    (forwardInfer σ cfg n xs st).1
      = .error "view: shape incompatible with tensor size in _reshape" ∧
    (forwardInfer σ cfg n xs st).2 = st := by
  have hbad : viewOk cfg.na x0 = false := by
    rw [Bool.eq_false_iff]
    intro htrue
    rcases (viewOk_iff cfg.na x0).mp htrue with h | h
    · exact hdvd h
    · exact hnz h
  obtain ⟨m, hm⟩ : ∃ m, cfg.nl = m + 1 := ⟨cfg.nl - 1, by omega⟩
  unfold forwardInfer
  rw [hm, List.range_succ_eq_map, runScales, hx]
  dsimp only
  rw [scaleStep_view_fail σ cfg n 0 x0 st hbad]
  exact ⟨rfl, rfl⟩

end YoloFace

namespace YoloFace

/-- A minimal one-scale configuration: one anchor `(2, 3)`, stride 4, no
attribute channels. -/
def cfgS : HeadConfig := ⟨[[(2, 3)]], [4], 0, 1 / 100, 3 / 5⟩

/-- A concrete raw output for `cfgS`: five channels (`1 × (5 + 0)`), one row,
two columns. -/
def x5 : RawScale := ⟨1, 5, 1, 2, fun _ _ _ _ => 1⟩

/-- The cache entry `_make_grid` builds for `x5`'s spatial shape. -/
def e0 : CacheEntry := ⟨1, 2, makeGrid cfgS 2 1 0⟩

/-- A raw output whose 15 channels are divisible by the three default
anchors but different from the declared `3 × (5 + 1) = 18`. -/
def x15 : RawScale := ⟨1, 15, 1, 1, fun _ _ _ _ => 0⟩

/-- A raw output whose 7 channels are not divisible by the three default
anchors. -/
def x7bad : RawScale := ⟨1, 7, 1, 1, fun _ _ _ _ => 0⟩

/-- Witness for C3 on the one-scale configuration: the decode of `x5` hands
suppression one canonical block of `1 × (1 × 2) = 2` candidates. -/
theorem forward_layout_witness :
    WFCache cfgS [none] ∧
    forwardInfer sigma0 cfgS 0 [x5] [none]
      = (.ok (canonCands sigma0 cfgS 0 0 x5), [some e0]) ∧
    canonCands sigma0 cfgS 0 0 x5
      = ((List.range cfgS.nl).map
          (fun i => canonCands sigma0 cfgS 0 i ([x5].getD i default))).flatten ∧
    (canonCands sigma0 cfgS 0 0 x5).length
      = ((List.range cfgS.nl).map
          (fun i => cfgS.na * (([x5].getD i default).H * ([x5].getD i default).W))).sum ∧
    (canonCands sigma0 cfgS 0 0 x5).length = 2 := by
  have hwf : WFCache cfgS [none] := by
    intro i e h
    rcases i with _ | i <;> simp [List.getD] at h
  have h : forwardInfer sigma0 cfgS 0 [x5] [none]
      = (.ok (canonCands sigma0 cfgS 0 0 x5), [some e0]) := rfl
  have htm := forward_candidate_layout sigma0 cfgS 0 [x5] [none]
    (canonCands sigma0 cfgS 0 0 x5) [some e0] hwf h
  refine ⟨hwf, h, htm.1, htm.2.1, ?_⟩
  rw [htm.2.1]
  decide

/-- Witness for C4: a cache hit (entry `e0` matches `x5`'s shape) returns the
cached entry unchanged and the decode step leaves the cache list as it was. -/
theorem grid_cache_policy_witness :
    gridLookup cfgS 0 (some e0) 1 2 = .ok (e0, false) ∧
    some e0 = some e0 ∧
    [some e0].getD 0 none = some e0 ∧ e0.H = x5.H ∧ e0.W = x5.W ∧
    scaleStep sigma0 cfgS 0 0 x5 [some e0]
      = .ok (scaleCandidates sigma0 4 e0.gp (reshape cfgS.na x5) 0, [some e0]) ∧
    ([some e0] : List (Option CacheEntry)) = [some e0] := by
  have hgl : gridLookup cfgS 0 (some e0) 1 2 = .ok (e0, false) := rfl
  have hss : scaleStep sigma0 cfgS 0 0 x5 [some e0]
      = .ok (scaleCandidates sigma0 4 e0.gp (reshape cfgS.na x5) 0, [some e0]) := rfl
  have hpol := grid_cache_policy cfgS 0 1 2 (some e0)
  exact ⟨hgl, (hpol.1 e0 false hgl).2 rfl, rfl, rfl, rfl, hss,
    hpol.2 sigma0 0 x5 [some e0] e0 _ _ rfl rfl rfl hss⟩

/-- Counterexample to C7 as stated: 15 channels differ from the declared
`3 × (5 + 1) = 18`, yet the inference call raises no error anywhere in the
decode path — only non-divisible channel counts are caught. -/
theorem malformed_channels_no_error :
    defaultCfg.na * (5 + defaultCfg.nattr) = 18 ∧ x15.C = 15 ∧ (15 : Nat) ≠ 18 ∧
    exceptOk (forwardInfer sigma0 defaultCfg 0 [x15, x15, x15]
      (initCache defaultCfg)).1 = true := by
  refine ⟨by decide, rfl, by decide, ?_⟩
  rfl

/-- Witness for C7 (amended): 7 channels are not divisible by 3 anchors, the
call fails at the reshape and the fresh cache is returned untouched. -/
theorem reshape_error_atomic_witness :
    0 < defaultCfg.nl ∧ ([x7bad, x15, x15] : List RawScale)[0]? = some x7bad ∧
    ¬ defaultCfg.na ∣ x7bad.C ∧ x7bad.N * (x7bad.H * x7bad.W) ≠ 0 ∧
    ((forwardInfer sigma0 defaultCfg 0 [x7bad, x15, x15] (initCache defaultCfg)).1
       = .error "view: shape incompatible with tensor size in _reshape" ∧
     (forwardInfer sigma0 defaultCfg 0 [x7bad, x15, x15] (initCache defaultCfg)).2
       = initCache defaultCfg) := by
  refine ⟨by decide, rfl, by decide, by decide, ?_⟩
  exact reshape_error_atomic sigma0 defaultCfg 0 [x7bad, x15, x15]
    (initCache defaultCfg) x7bad (by decide) rfl (by decide) (by decide)

end YoloFace
